import Mathlib

/-!
Verification development for the multiplayer relay server (`server.py`).

The server keeps four in-memory stores — a battle-challenge table keyed by
target player id, a bounded chat log with monotonically assigned message ids,
a presence store (implemented in the `PlayerHandler` module), and the session
registry mapping player ids to websocket handles — and a per-connection
handler that dispatches inbound JSON messages (`player_update`,
`battle_challenge`, `battle_accept`, `battle_decline`, `chat_send`).

Python dicts are embedded as association lists with insert-overwrites-in-place
semantics; Python strings as lists of characters; player ids as `Int`
(sentinel values such as `-1` are negative); websocket handles as `Nat`;
monster payloads as `Option α` for an opaque payload type `α` (Python passes
a dict or `None`).  Outbound traffic is recorded as a list of attempted sends
`(handle, message)`; whether a send succeeds is an oracle `sendOk` because the
server swallows send exceptions.
-/

/-! ### Python dict primitives (association lists) -/

/-- `d[k] = v` on a Python dict: overwrite the entry for `k` in place if
present, otherwise append a new entry. -/
def dictInsert {β : Type} (k : Int) (v : β) : List (Int × β) → List (Int × β)
  | [] => [(k, v)]
  | (k', v') :: rest =>
      if k' = k then (k, v) :: rest else (k', v') :: dictInsert k v rest

/-- `d.get(k)` on a Python dict. -/
def dictGet {β : Type} (k : Int) : List (Int × β) → Option β
  | [] => none
  | (k', v) :: rest => if k' = k then some v else dictGet k rest

/-- `del d[k]` (guarded by `if k in d`) on a Python dict: drop the entry for
`k` when present. -/
def dictRemove {β : Type} (k : Int) : List (Int × β) → List (Int × β)
  | [] => []
  | (k', v) :: rest => if k' = k then rest else (k', v) :: dictRemove k rest

/-- The keys of a dict, in storage order. -/
def dictKeys {β : Type} (d : List (Int × β)) : List Int :=
  d.map Prod.fst

/-- How many entries of `d` carry the key `k`. -/
def countKey {β : Type} (k : Int) (d : List (Int × β)) : Nat :=
  (d.filter (fun p => p.1 = k)).length

/-! ### Battle Challenge Storage (`BattleChallengeStore`, server.py lines 19-44) -/

/-- One pending challenge record, the dict built in `add_challenge`:
`{"from": from_id, "to": to_id, "timestamp": ..., "challenger_monster": ...}`. -/
structure Challenge (α : Type) where
  from_id : Int
  to_id : Int
  timestamp : Nat
  challenger_monster : Option α
  deriving DecidableEq, Repr

/-- The `_pending_challenges` dict: target id → challenge info. -/
abbrev ChallengeStore (α : Type) : Type := List (Int × Challenge α)

namespace BattleChallengeStore

/-- `add_challenge(from_id, to_id, monster_data)`: build the challenge record
and store it under `to_id`, returning it. -/
def add_challenge {α : Type} (from_id to_id : Int) (monster_data : Option α)
    (now : Nat) (s : ChallengeStore α) : Challenge α × ChallengeStore α :=
  let challenge : Challenge α :=
    { from_id := from_id, to_id := to_id, timestamp := now,
      challenger_monster := monster_data }
  (challenge, dictInsert to_id challenge s)

/-- `get_challenge(to_id)`: `self._pending_challenges.get(to_id)`. -/
def get_challenge {α : Type} (to_id : Int) (s : ChallengeStore α) :
    Option (Challenge α) :=
  dictGet to_id s

/-- `remove_challenge(to_id)`: delete the entry keyed `to_id` when present. -/
def remove_challenge {α : Type} (to_id : Int) (s : ChallengeStore α) :
    ChallengeStore α :=
  dictRemove to_id s

end BattleChallengeStore

/-! ### Chat storage (`ChatStore`, server.py lines 53-93) -/

/-- Python `str.strip()`: drop whitespace from both ends. -/
def pyStrip (s : List Char) : List Char :=
  ((s.dropWhile Char.isWhitespace).reverse.dropWhile Char.isWhitespace).reverse

/-- One chat message, the dict built in `ChatStore.add`:
`{"id": ..., "from": sender_id, "text": t, "ts": ...}`. -/
structure ChatMsg where
  id : Nat
  sender : Int
  text : List Char
  ts : Nat
  deriving DecidableEq, Repr

/-- The `ChatStore` state: `_next_id` counter and `_messages` list. -/
structure ChatStore where
  next_id : Nat
  messages : List ChatMsg
  deriving DecidableEq, Repr

namespace ChatStore

/-- The store as constructed in `__init__`. -/
def init : ChatStore := { next_id := 1, messages := [] }

/-- `add(sender_id, text)`: strip, truncate to 200 chars, reject if the
result is empty (`raise ValueError("empty")`), otherwise append the message
with the next id and compact the log to the last 800 entries once it exceeds
1000. -/
def add (s : ChatStore) (sender_id : Int) (text : List Char) (now : Nat) :
    Except String (ChatMsg × ChatStore) :=
  let t0 := pyStrip text
  let t := if t0.length > 200 then t0.take 200 else t0
  if t.isEmpty then .error "empty"
  else
    let msg : ChatMsg := { id := s.next_id, sender := sender_id, text := t, ts := now }
    let appended := s.messages ++ [msg]
    let kept := if appended.length > 1000 then appended.drop (appended.length - 800)
      else appended
    .ok (msg, { next_id := s.next_id + 1, messages := kept })

/-- `list_since(since_id)`: the last 100 messages when `since_id <= 0`,
otherwise every message with id `> since_id`, capped to the last 200. -/
def list_since (s : ChatStore) (since_id : Int) : List ChatMsg :=
  if since_id ≤ 0 then s.messages.drop (s.messages.length - 100)
  else
    let out := s.messages.filter (fun m => (m.id : Int) > since_id)
    if out.length > 200 then out.drop (out.length - 200) else out

end ChatStore

/-! ### Presence store (`PlayerHandler`) -/

/-- One presence entry: last-known transform of a player. -/
structure PresenceEntry where
  x : Int
  y : Int
  map_name : List Char
  direction : List Char
  is_moving : Bool
  deriving DecidableEq, Repr

/-- The presence store: player id → last-known transform. -/
abbrev PresenceStore : Type := List (Int × PresenceEntry)

namespace PlayerHandler

/-- Modelled from the spec: `PlayerHandler.update` is implemented in the
`server.playerHandler` module, which is not part of the sources here; per
§4.2 it is an unconditional overwrite of the entry for `player_id`
(last-write-wins). -/
def update (p : PresenceStore) (player_id : Int) (x y : Int)
    (map_name direction : List Char) (is_moving : Bool) : PresenceStore :=
  dictInsert player_id
    { x := x, y := y, map_name := map_name, direction := direction,
      is_moving := is_moving } p

/-- Modelled from the spec: `PlayerHandler.unregister` is implemented in the
`server.playerHandler` module, which is not part of the sources here; per
§4.2/§4.5 it removes the presence entry for the disconnecting id. -/
def unregister (p : PresenceStore) (player_id : Int) : PresenceStore :=
  dictRemove player_id p

end PlayerHandler

/-! ### Connection handler (`handle_client`, server.py lines 125-306) -/

/-- Outbound server → client messages built by `handle_client`. -/
inductive OutMsg (α : Type) where
  | battle_challenge_received (from_id : Int) (opponent_monster : Option α)
  | battle_start (opponent_id : Int) (opponent_monster : Option α)
  | battle_declined (by_id : Int)
  | chat_update (messages : List ChatMsg)
  | error (message : List Char)
  deriving DecidableEq, Repr

/-- The shared server state touched by the message dispatch loop:
`BATTLE_CHALLENGES`, `CHAT`, the presence store inside `PLAYER_HANDLER`,
`PLAYER_WEBSOCKETS`, and `CONNECTED_CLIENTS`. -/
structure ServerState (α : Type) where
  challenges : ChallengeStore α
  chat : ChatStore
  presence : PresenceStore
  player_ws : List (Int × Nat)
  connected : List Nat
  deriving DecidableEq

/-- An attempted send: target websocket handle and message. -/
abbrev Send (α : Type) : Type := Nat × OutMsg α

/-- Inbound `player_update` frame.  `client_id` is the id field a client may
assert in the frame; `handle_client` never reads it. -/
structure PlayerUpdateMsg where
  client_id : Option Int
  x : Int
  y : Int
  map_name : List Char
  direction : List Char
  is_moving : Bool
  deriving DecidableEq, Repr

/-- Inbound `chat_send` frame.  `client_id` is the id field a client may
assert in the frame; `handle_client` never reads it. -/
structure ChatSendMsg where
  client_id : Option Int
  text : List Char
  deriving DecidableEq, Repr

/-- The `player_update` branch: update the presence store under the
server-assigned `player_id`, ignoring any client-asserted id; nothing is
sent. -/
def handlePlayerUpdate {α : Type} (st : ServerState α) (player_id : Int)
    (m : PlayerUpdateMsg) : ServerState α × List (Send α) :=
  ({ st with
      presence := PlayerHandler.update st.presence player_id m.x m.y
        m.map_name m.direction m.is_moving }, [])

/-- The `battle_challenge` branch: when `target_id >= 0` and
`target_id != player_id`, store the challenge, then attempt to notify the
target if it has a registered websocket; otherwise do nothing. -/
def handleBattleChallenge {α : Type} (st : ServerState α) (player_id : Int)
    (target_id : Int) (monster_data : Option α) (now : Nat) :
    ServerState α × List (Send α) :=
  if target_id ≥ 0 ∧ target_id ≠ player_id then
    let (_, chs) :=
      BattleChallengeStore.add_challenge player_id target_id monster_data now
        st.challenges
    let attempts : List (Send α) :=
      match dictGet target_id st.player_ws with
      | some ws => [(ws, OutMsg.battle_challenge_received player_id monster_data)]
      | none => []
    ({ st with challenges := chs }, attempts)
  else (st, [])

/-- The `battle_accept` branch: when `challenger_id >= 0`, read and remove
the challenge keyed by the accepter's own id, attempt `battle_start` to the
challenger's websocket if registered, then attempt `battle_start` to the
accepter's own websocket (always, whatever became of the challenger send). -/
def handleBattleAccept {α : Type} (st : ServerState α) (player_id : Int)
    (self_ws : Nat) (challenger_id : Int) (accepter_monster : Option α) :
    ServerState α × List (Send α) :=
  if challenger_id ≥ 0 then
    let challenge := BattleChallengeStore.get_challenge player_id st.challenges
    let challenger_monster :=
      match challenge with
      | some c => c.challenger_monster
      | none => none
    let chs := BattleChallengeStore.remove_challenge player_id st.challenges
    let toChallenger : List (Send α) :=
      match dictGet challenger_id st.player_ws with
      | some ws => [(ws, OutMsg.battle_start player_id accepter_monster)]
      | none => []
    ({ st with challenges := chs },
      toChallenger ++ [(self_ws, OutMsg.battle_start challenger_id challenger_monster)])
  else (st, [])

/-- The `chat_send` branch: skip empty text, otherwise call `ChatStore.add`
under the server-assigned id; on success broadcast the new message to every
connected client and drop the clients whose send failed; on the
empty-message rejection reply `error{"empty_message"}` to the sender only. -/
def handleChatSend {α : Type} (st : ServerState α) (player_id : Int)
    (self_ws : Nat) (m : ChatSendMsg) (now : Nat) (sendOk : Nat → Bool) :
    ServerState α × List (Send α) :=
  if m.text ≠ [] then
    match st.chat.add player_id m.text now with
    | .ok (msg, chat) =>
        ({ st with chat := chat, connected := st.connected.filter sendOk },
          st.connected.map (fun c => (c, OutMsg.chat_update [msg])))
    | .error _ =>
        (st, [(self_ws, OutMsg.error "empty_message".toList)])
  else (st, [])

/-- The `finally` teardown: unregister presence and remove the challenge
keyed by this id when `player_id >= 0`, unbind the websocket, and discard it
from the connected set. -/
def teardown {α : Type} (st : ServerState α) (player_id : Int)
    (self_ws : Nat) : ServerState α :=
  let st1 :=
    if player_id ≥ 0 then
      { st with presence := PlayerHandler.unregister st.presence player_id,
                challenges := BattleChallengeStore.remove_challenge player_id
                  st.challenges }
    else st
  { st1 with player_ws := dictRemove player_id st1.player_ws,
             connected := st1.connected.filter (fun c => c ≠ self_ws) }

/-! ### Dict lemmas -/

@[simp]
theorem dictKeys_nil {β : Type} : dictKeys ([] : List (Int × β)) = [] := rfl

@[simp]
theorem dictKeys_cons {β : Type} (p : Int × β) (d : List (Int × β)) :
    dictKeys (p :: d) = p.1 :: dictKeys d := rfl

theorem dictGet_eq_none_of_not_mem {β : Type} {k : Int} {d : List (Int × β)}
    (h : k ∉ dictKeys d) : dictGet k d = none := by
  induction d with
  | nil => rfl
  | cons p rest ih =>
    obtain ⟨k', v⟩ := p
    simp only [dictKeys_cons, List.mem_cons, not_or] at h
    rw [dictGet, if_neg (Ne.symm h.1)]
    exact ih h.2

theorem dictGet_insert_self {β : Type} (k : Int) (v : β) (d : List (Int × β)) :
    dictGet k (dictInsert k v d) = some v := by
  induction d with
  | nil => simp [dictInsert, dictGet]
  | cons p rest ih =>
    obtain ⟨k', v'⟩ := p
    by_cases h : k' = k
    · rw [dictInsert, if_pos h, dictGet, if_pos rfl]
    · rw [dictInsert, if_neg h, dictGet, if_neg h]
      exact ih

theorem dictGet_insert_ne {β : Type} {q k : Int} (v : β) (d : List (Int × β))
    (h : q ≠ k) : dictGet q (dictInsert k v d) = dictGet q d := by
  induction d with
  | nil =>
    simp [dictInsert, dictGet, Ne.symm h]
  | cons p rest ih =>
    obtain ⟨k', v'⟩ := p
    by_cases hk : k' = k
    · subst hk
      rw [dictInsert, if_pos rfl, dictGet, if_neg (Ne.symm h), dictGet,
        if_neg (Ne.symm h)]
    · rw [dictInsert, if_neg hk, dictGet, dictGet]
      by_cases hq : k' = q
      · rw [if_pos hq, if_pos hq]
      · rw [if_neg hq, if_neg hq]
        exact ih

theorem dictGet_remove_ne {β : Type} {q k : Int} (d : List (Int × β))
    (h : q ≠ k) : dictGet q (dictRemove k d) = dictGet q d := by
  induction d with
  | nil => rfl
  | cons p rest ih =>
    obtain ⟨k', v'⟩ := p
    by_cases hk : k' = k
    · subst hk
      rw [dictRemove, if_pos rfl, dictGet, if_neg (Ne.symm h)]
    · rw [dictRemove, if_neg hk, dictGet, dictGet]
      by_cases hq : k' = q
      · rw [if_pos hq, if_pos hq]
      · rw [if_neg hq, if_neg hq]
        exact ih

theorem dictGet_remove_self {β : Type} {k : Int} {d : List (Int × β)}
    (h : (dictKeys d).Nodup) : dictGet k (dictRemove k d) = none := by
  induction d with
  | nil => rfl
  | cons p rest ih =>
    obtain ⟨k', v⟩ := p
    simp only [dictKeys_cons, List.nodup_cons] at h
    by_cases hk : k' = k
    · subst hk
      rw [dictRemove, if_pos rfl]
      exact dictGet_eq_none_of_not_mem h.1
    · rw [dictRemove, if_neg hk, dictGet, if_neg hk]
      exact ih h.2

theorem dictKeys_remove_sublist {β : Type} (k : Int) (d : List (Int × β)) :
    (dictKeys (dictRemove k d)).Sublist (dictKeys d) := by
  induction d with
  | nil => simp [dictRemove]
  | cons p rest ih =>
    obtain ⟨k', v⟩ := p
    by_cases hk : k' = k
    · rw [dictRemove, if_pos hk, dictKeys_cons]
      exact (List.sublist_cons_self _ _)
    · rw [dictRemove, if_neg hk, dictKeys_cons, dictKeys_cons]
      exact ih.cons₂ _

theorem dictKeys_insert {β : Type} (k : Int) (v : β) (d : List (Int × β)) :
    dictKeys (dictInsert k v d) =
      if k ∈ dictKeys d then dictKeys d else dictKeys d ++ [k] := by
  induction d with
  | nil => simp [dictInsert]
  | cons p rest ih =>
    obtain ⟨k', v'⟩ := p
    by_cases hk : k' = k
    · subst hk
      rw [dictInsert, if_pos rfl, dictKeys_cons, dictKeys_cons,
        if_pos (by simp)]
    · rw [dictInsert, if_neg hk, dictKeys_cons, dictKeys_cons, ih]
      by_cases hm : k ∈ dictKeys rest
      · rw [if_pos hm, if_pos (by simp [hm])]
      · rw [if_neg hm, if_neg (by simp [hm, Ne.symm hk]), List.cons_append]

theorem dictKeys_insert_nodup {β : Type} {k : Int} (v : β) {d : List (Int × β)}
    (h : (dictKeys d).Nodup) : (dictKeys (dictInsert k v d)).Nodup := by
  rw [dictKeys_insert]
  by_cases hm : k ∈ dictKeys d
  · rwa [if_pos hm]
  · rw [if_neg hm]
    exact List.Nodup.append h (List.nodup_singleton k)
      (by simpa [List.disjoint_singleton] using hm)

theorem countKey_insert_self {β : Type} {k : Int} (v : β) {d : List (Int × β)}
    (h : (dictKeys d).Nodup) : countKey k (dictInsert k v d) = 1 := by
  induction d with
  | nil => simp [dictInsert, countKey]
  | cons p rest ih =>
    obtain ⟨k', v'⟩ := p
    simp only [dictKeys_cons, List.nodup_cons] at h
    by_cases hk : k' = k
    · subst hk
      have hz : (rest.filter (fun p => p.1 = k')).length = 0 := by
        rw [List.length_eq_zero, List.filter_eq_nil_iff]
        intro p hp hkp
        exact h.1 (by
          have : p.1 = k' := by simpa using hkp
          exact this ▸ List.mem_map_of_mem Prod.fst hp)
      rw [dictInsert, if_pos rfl, countKey, List.filter_cons]
      simp [hz]
    · rw [dictInsert, if_neg hk, countKey, List.filter_cons]
      have := ih h.2
      rw [countKey] at this
      simp [hk, this]

/-! ### Claims about the challenge table -/

/-- Claim C6: for every target id `t`, calling `add_challenge f2 t m2` after
`add_challenge f1 t m1` leaves exactly one challenge keyed by `t`, and
`get_challenge t` then returns the second challenge (from `f2` with payload
`m2`): last-challenger-wins, the earlier challenge is discarded. -/
theorem add_challenge_last_wins {α : Type} (s : ChallengeStore α)
    (f1 f2 t : Int) (m1 m2 : Option α) (t1 t2 : Nat)
    (h : (dictKeys s).Nodup) :
    countKey t (BattleChallengeStore.add_challenge f2 t m2 t2
        (BattleChallengeStore.add_challenge f1 t m1 t1 s).2).2 = 1 ∧
    BattleChallengeStore.get_challenge t
        (BattleChallengeStore.add_challenge f2 t m2 t2
          (BattleChallengeStore.add_challenge f1 t m1 t1 s).2).2 =
      some { from_id := f2, to_id := t, timestamp := t2,
             challenger_monster := m2 } := by
  constructor
  · exact countKey_insert_self _ (dictKeys_insert_nodup _ h)
  · exact dictGet_insert_self _ _ _

theorem add_challenge_last_wins_witness :
    (dictKeys ([] : ChallengeStore Nat)).Nodup ∧
    (countKey 2 (BattleChallengeStore.add_challenge 7 2 (some 20) 6
        (BattleChallengeStore.add_challenge 1 2 (some 10) 5
          ([] : ChallengeStore Nat)).2).2 = 1 ∧
     BattleChallengeStore.get_challenge 2
        (BattleChallengeStore.add_challenge 7 2 (some 20) 6
          (BattleChallengeStore.add_challenge 1 2 (some 10) 5
            ([] : ChallengeStore Nat)).2).2 =
      some { from_id := 7, to_id := 2, timestamp := 6,
             challenger_monster := some 20 }) :=
  ⟨List.nodup_nil, add_challenge_last_wins [] 1 7 2 (some 10) (some 20) 5 6
    List.nodup_nil⟩

/-- Claim C7: `battle_challenge` is a complete no-op (no challenge stored,
nothing sent, no error reply) when `target_id < 0` or `target_id` equals the
sender's own id; otherwise the challenge is stored in the challenge table —
and stays stored whatever the session registry holds and however the send
goes, since the send attempt never touches the table — and the notification
is attempted exactly when the target has a registered websocket. -/
theorem battle_challenge_spec {α : Type} (st : ServerState α)
    (pid tid : Int) (md : Option α) (now : Nat) :
    ((tid < 0 ∨ tid = pid) → handleBattleChallenge st pid tid md now = (st, [])) ∧
    (tid ≥ 0 → tid ≠ pid →
      (handleBattleChallenge st pid tid md now).1.challenges =
        dictInsert tid
          { from_id := pid, to_id := tid, timestamp := now,
            challenger_monster := md } st.challenges ∧
      BattleChallengeStore.get_challenge tid
          (handleBattleChallenge st pid tid md now).1.challenges =
        some { from_id := pid, to_id := tid, timestamp := now,
               challenger_monster := md } ∧
      (handleBattleChallenge st pid tid md now).1.chat = st.chat ∧
      (handleBattleChallenge st pid tid md now).1.presence = st.presence ∧
      (handleBattleChallenge st pid tid md now).1.player_ws = st.player_ws ∧
      (handleBattleChallenge st pid tid md now).1.connected = st.connected ∧
      (dictGet tid st.player_ws = none →
        (handleBattleChallenge st pid tid md now).2 = []) ∧
      (∀ w, dictGet tid st.player_ws = some w →
        (handleBattleChallenge st pid tid md now).2 =
          [(w, OutMsg.battle_challenge_received pid md)])) := by
  constructor
  · intro h
    rw [handleBattleChallenge, if_neg]
    rintro ⟨h1, h2⟩
    rcases h with h | h
    · omega
    · exact h2 h
  · intro h1 h2
    cases hw : dictGet tid st.player_ws with
    | none =>
      simp only [handleBattleChallenge, if_pos (And.intro h1 h2),
        BattleChallengeStore.add_challenge, BattleChallengeStore.get_challenge, hw]
      simp [dictGet_insert_self]
    | some w0 =>
      simp only [handleBattleChallenge, if_pos (And.intro h1 h2),
        BattleChallengeStore.add_challenge, BattleChallengeStore.get_challenge, hw]
      simp [dictGet_insert_self]

theorem battle_challenge_spec_witness :
    (handleBattleChallenge
        (α := Nat)
        { challenges := [], chat := ChatStore.init, presence := [],
          player_ws := [(2, 5)], connected := [5, 9] }
        1 (-3) (some 4) 0 =
      ({ challenges := [], chat := ChatStore.init, presence := [],
         player_ws := [(2, 5)], connected := [5, 9] }, [])) ∧
    ((2 : Int) ≥ 0) ∧ ((2 : Int) ≠ 1) ∧
    BattleChallengeStore.get_challenge 2
        (handleBattleChallenge
          (α := Nat)
          { challenges := [], chat := ChatStore.init, presence := [],
            player_ws := [(2, 5)], connected := [5, 9] }
          1 2 (some 4) 0).1.challenges =
      some { from_id := 1, to_id := 2, timestamp := 0,
             challenger_monster := some 4 } :=
  ⟨(battle_challenge_spec _ 1 (-3) (some 4) 0).1 (Or.inl (by decide)),
   by decide, by decide,
   ((battle_challenge_spec _ 1 2 (some 4) 0).2 (by decide) (by decide)).2.1⟩

/-! ### Claims about battle_accept, teardown, and id authority -/

/-- Claim C1: `battle_accept` with `challenger_id ≥ 0` removes the challenge
keyed by the accepter's own id (touching no other key and no other store),
attempts `battle_start{opponent_id := accepter, opponent_monster :=
accepter's monster_data}` to the challenger's registered websocket, and in
every case also attempts `battle_start{opponent_id := challenger_id,
opponent_monster := the stored challenger monster, or none when no challenge
was stored}` to the accepter — the accepter attempt is in the attempt list
whatever becomes of the challenger attempt, because send failures are
swallowed without touching the rest of the branch.  With `challenger_id < 0`
nothing changes and nothing is sent. -/
theorem battle_accept_spec {α : Type} (st : ServerState α) (pid : Int)
    (self_ws : Nat) (cid : Int) (am : Option α)
    (hnd : (dictKeys st.challenges).Nodup) :
    (cid ≥ 0 →
      BattleChallengeStore.get_challenge pid
        (handleBattleAccept st pid self_ws cid am).1.challenges = none ∧
      (∀ q, q ≠ pid →
        BattleChallengeStore.get_challenge q
            (handleBattleAccept st pid self_ws cid am).1.challenges =
          BattleChallengeStore.get_challenge q st.challenges) ∧
      (handleBattleAccept st pid self_ws cid am).1.chat = st.chat ∧
      (handleBattleAccept st pid self_ws cid am).1.presence = st.presence ∧
      (handleBattleAccept st pid self_ws cid am).1.player_ws = st.player_ws ∧
      (handleBattleAccept st pid self_ws cid am).1.connected = st.connected ∧
      (∀ w, dictGet cid st.player_ws = some w →
        (handleBattleAccept st pid self_ws cid am).2 =
          [(w, OutMsg.battle_start pid am),
           (self_ws, OutMsg.battle_start cid
             (match BattleChallengeStore.get_challenge pid st.challenges with
              | some c => c.challenger_monster
              | none => none))]) ∧
      (dictGet cid st.player_ws = none →
        (handleBattleAccept st pid self_ws cid am).2 =
          [(self_ws, OutMsg.battle_start cid
             (match BattleChallengeStore.get_challenge pid st.challenges with
              | some c => c.challenger_monster
              | none => none))])) ∧
    (cid < 0 → handleBattleAccept st pid self_ws cid am = (st, [])) := by
  constructor
  · intro hc
    simp only [handleBattleAccept, if_pos hc, BattleChallengeStore.get_challenge,
      BattleChallengeStore.remove_challenge]
    refine ⟨dictGet_remove_self hnd, fun q hq => dictGet_remove_ne _ hq,
      trivial, trivial, trivial, trivial, ?_, ?_⟩
    · intro w hw
      rw [hw]
      rfl
    · intro hw
      rw [hw]
      rfl
  · intro hc
    rw [handleBattleAccept, if_neg (by omega)]

/-- Concrete two-player state: player 1 (socket 4) has challenged player 2
(socket 5) with monster 11. -/
def exAcceptState : ServerState Nat :=
  { challenges :=
      [(2, { from_id := 1, to_id := 2, timestamp := 0,
             challenger_monster := some 11 })],
    chat := ChatStore.init, presence := [], player_ws := [(1, 4), (2, 5)],
    connected := [4, 5] }

theorem battle_accept_spec_witness :
    (dictKeys exAcceptState.challenges).Nodup ∧ (1 : Int) ≥ 0 ∧
    BattleChallengeStore.get_challenge 2
        (handleBattleAccept exAcceptState 2 5 1 (some 22)).1.challenges =
      none ∧
    (handleBattleAccept exAcceptState 2 5 1 (some 22)).2 =
      [(4, OutMsg.battle_start 2 (some 22)),
       (5, OutMsg.battle_start 1 (some 11))] := by
  have h := battle_accept_spec exAcceptState 2 5 1 (some 22) (by decide)
  refine ⟨by decide, by decide, (h.1 (by decide)).1, ?_⟩
  have := ((h.1 (by decide)).2.2.2.2.2.2.1) 4 (by decide)
  simpa using this

/-- Claim C10: `battle_accept` never checks the message-supplied
`challenger_id` against the stored challenge's `from_id`: whoever stored the
accepter's pending challenge (no hypothesis here ties `ch.from_id` to
`cid`), it is removed, `battle_start` is attempted to the message-supplied
challenger id's websocket, and the accepter is sent the stored challenger
monster; when no challenge keyed by the accepter exists, the exchange still
proceeds with `none` as the accepter's opponent_monster. -/
theorem battle_accept_unchecked {α : Type} (st : ServerState α) (pid : Int)
    (self_ws : Nat) (cid : Int) (am : Option α)
    (hnd : (dictKeys st.challenges).Nodup) (hc : cid ≥ 0) :
    (∀ ch, BattleChallengeStore.get_challenge pid st.challenges = some ch →
      BattleChallengeStore.get_challenge pid
        (handleBattleAccept st pid self_ws cid am).1.challenges = none ∧
      (self_ws, OutMsg.battle_start cid ch.challenger_monster) ∈
        (handleBattleAccept st pid self_ws cid am).2 ∧
      (∀ w, dictGet cid st.player_ws = some w →
        (w, OutMsg.battle_start pid am) ∈
          (handleBattleAccept st pid self_ws cid am).2)) ∧
    (BattleChallengeStore.get_challenge pid st.challenges = none →
      (self_ws, OutMsg.battle_start cid none) ∈
        (handleBattleAccept st pid self_ws cid am).2) := by
  constructor
  · intro ch hch
    simp only [handleBattleAccept, if_pos hc, BattleChallengeStore.get_challenge,
      BattleChallengeStore.remove_challenge] at *
    rw [hch]
    refine ⟨dictGet_remove_self hnd, List.mem_append_right _ (by simp), ?_⟩
    intro w hw
    rw [hw]
    exact List.mem_append_left _ (by simp)
  · intro hch
    simp only [handleBattleAccept, if_pos hc, BattleChallengeStore.get_challenge] at *
    rw [hch]
    exact List.mem_append_right _ (by simp)

/-- The stored challenge used in the C10 witness: it came from player 9,
while the accept will name challenger 1. -/
def exStaleChallenge : Challenge Nat :=
  { from_id := 9, to_id := 2, timestamp := 3, challenger_monster := some 77 }

/-- Concrete state for C10: the stored challenge under key 2 came from
player 9, while the accept names challenger 1. -/
def exStaleState : ServerState Nat :=
  { challenges := [(2, exStaleChallenge)],
    chat := ChatStore.init, presence := [], player_ws := [(1, 4), (2, 5)],
    connected := [4, 5] }

theorem battle_accept_unchecked_witness :
    (dictKeys exStaleState.challenges).Nodup ∧ (1 : Int) ≥ 0 ∧
    BattleChallengeStore.get_challenge 2 exStaleState.challenges =
      some exStaleChallenge ∧
    BattleChallengeStore.get_challenge 2
        (handleBattleAccept exStaleState 2 5 1 (some 22)).1.challenges =
      none ∧
    (5, OutMsg.battle_start 1 (some 77)) ∈
      (handleBattleAccept exStaleState 2 5 1 (some 22)).2 ∧
    (4, OutMsg.battle_start 2 (some 22)) ∈
      (handleBattleAccept exStaleState 2 5 1 (some 22)).2 := by
  have h := battle_accept_unchecked exStaleState 2 5 1 (some 22)
    (by decide) (by decide)
  have h2 := h.1 exStaleChallenge (by decide)
  have h3 : (5, OutMsg.battle_start 1 (some 77)) ∈
      (handleBattleAccept exStaleState 2 5 1 (some 22)).2 := by
    simpa [exStaleChallenge] using h2.2.1
  exact ⟨by decide, by decide, by decide, h2.1, h3, h2.2.2 4 (by decide)⟩

/-- Claim C8: teardown of a registered player `pid` removes exactly that
player's state: its presence entry, the challenge keyed by `pid` as target,
its id→websocket binding, and its socket from the broadcast recipient set.
The chat log, every other id's presence and websocket binding, every
challenge keyed by another target (in particular one whose `from_id` is
`pid`), and every other socket's membership in the recipient set are
unchanged. -/
theorem teardown_spec {α : Type} (st : ServerState α) (pid : Int)
    (self_ws : Nat) (hpid : pid ≥ 0)
    (hp : (dictKeys st.presence).Nodup)
    (hc : (dictKeys st.challenges).Nodup)
    (hw : (dictKeys st.player_ws).Nodup) :
    dictGet pid (teardown st pid self_ws).presence = none ∧
    BattleChallengeStore.get_challenge pid
      (teardown st pid self_ws).challenges = none ∧
    dictGet pid (teardown st pid self_ws).player_ws = none ∧
    self_ws ∉ (teardown st pid self_ws).connected ∧
    (teardown st pid self_ws).chat = st.chat ∧
    (∀ q, q ≠ pid →
      dictGet q (teardown st pid self_ws).presence = dictGet q st.presence) ∧
    (∀ q, q ≠ pid →
      BattleChallengeStore.get_challenge q (teardown st pid self_ws).challenges =
        BattleChallengeStore.get_challenge q st.challenges) ∧
    (∀ q, q ≠ pid →
      dictGet q (teardown st pid self_ws).player_ws = dictGet q st.player_ws) ∧
    (∀ c, c ≠ self_ws →
      (c ∈ (teardown st pid self_ws).connected ↔ c ∈ st.connected)) := by
  simp only [teardown, if_pos hpid, PlayerHandler.unregister,
    BattleChallengeStore.get_challenge, BattleChallengeStore.remove_challenge]
  refine ⟨dictGet_remove_self hp, dictGet_remove_self hc,
    dictGet_remove_self hw, by simp, trivial,
    fun q hq => dictGet_remove_ne _ hq, fun q hq => dictGet_remove_ne _ hq,
    fun q hq => dictGet_remove_ne _ hq, fun c hcw => ?_⟩
  simp [List.mem_filter, hcw]

/-- Concrete state for the teardown witness: players 1 and 2 are present;
player 2 has a pending challenge from player 1 (so 1 is only a challenger),
and player 1 has a pending challenge from player 2. -/
def exTearState : ServerState Nat :=
  { challenges :=
      [(2, { from_id := 1, to_id := 2, timestamp := 0,
             challenger_monster := some 11 }),
       (1, { from_id := 2, to_id := 1, timestamp := 1,
             challenger_monster := some 22 })],
    chat := { next_id := 2,
              messages := [{ id := 1, sender := 2, text := ['h', 'i'], ts := 0 }] },
    presence :=
      [(1, { x := 0, y := 0, map_name := ['m'], direction := ['u', 'p'],
             is_moving := false }),
       (2, { x := 3, y := 4, map_name := ['m'], direction := ['u', 'p'],
             is_moving := true })],
    player_ws := [(1, 4), (2, 5)], connected := [4, 5] }

theorem teardown_spec_witness :
    ((1 : Int) ≥ 0 ∧ (dictKeys exTearState.presence).Nodup ∧
      (dictKeys exTearState.challenges).Nodup ∧
      (dictKeys exTearState.player_ws).Nodup) ∧
    dictGet 1 (teardown exTearState 1 4).presence = none ∧
    BattleChallengeStore.get_challenge 1 (teardown exTearState 1 4).challenges =
      none ∧
    dictGet 1 (teardown exTearState 1 4).player_ws = none ∧
    4 ∉ (teardown exTearState 1 4).connected ∧
    (teardown exTearState 1 4).chat = exTearState.chat ∧
    BattleChallengeStore.get_challenge 2 (teardown exTearState 1 4).challenges =
      BattleChallengeStore.get_challenge 2 exTearState.challenges ∧
    dictGet 2 (teardown exTearState 1 4).presence =
      dictGet 2 exTearState.presence ∧
    (5 ∈ (teardown exTearState 1 4).connected ↔ 5 ∈ exTearState.connected) := by
  have h := teardown_spec exTearState 1 4 (by decide) (by decide) (by decide)
    (by decide)
  exact ⟨⟨by decide, by decide, by decide, by decide⟩, h.1, h.2.1, h.2.2.1,
    h.2.2.2.1, h.2.2.2.2.1, h.2.2.2.2.2.2.1 2 (by decide),
    h.2.2.2.2.2.1 2 (by decide), h.2.2.2.2.2.2.2.2 5 (by decide)⟩

/-- Claim C9: the `player_update` and `chat_send` branches read only the
server-assigned `player_id`, never a client-supplied id field: two inbound
frames that differ only in the client-asserted id field produce identical
store mutations and identical attempted sends. -/
theorem handler_ignores_client_id {α : Type} (st : ServerState α) (pid : Int)
    (self_ws : Nat) (m1 m2 : PlayerUpdateMsg) (c1 c2 : ChatSendMsg)
    (now : Nat) (sendOk : Nat → Bool)
    (hx : m1.x = m2.x) (hy : m1.y = m2.y) (hmn : m1.map_name = m2.map_name)
    (hd : m1.direction = m2.direction) (hmv : m1.is_moving = m2.is_moving)
    (ht : c1.text = c2.text) :
    handlePlayerUpdate st pid m1 = handlePlayerUpdate st pid m2 ∧
    handleChatSend st pid self_ws c1 now sendOk =
      handleChatSend st pid self_ws c2 now sendOk := by
  obtain ⟨i1, x1, y1, n1, d1, v1⟩ := m1
  obtain ⟨i2, x2, y2, n2, d2, v2⟩ := m2
  obtain ⟨j1, t1⟩ := c1
  obtain ⟨j2, t2⟩ := c2
  simp only at hx hy hmn hd hmv ht
  subst hx hy hmn hd hmv ht
  exact ⟨rfl, rfl⟩

theorem handler_ignores_client_id_witness :
    ((5 : Int) = 5 ∧ (6 : Int) = 6 ∧ (['m'] : List Char) = ['m'] ∧
      (['u', 'p'] : List Char) = ['u', 'p'] ∧ true = true ∧
      (['h', 'i'] : List Char) = ['h', 'i']) ∧
    handlePlayerUpdate (α := Nat)
        { challenges := [], chat := ChatStore.init, presence := [],
          player_ws := [], connected := [7] } 1
        { client_id := some 99, x := 5, y := 6, map_name := ['m'],
          direction := ['u', 'p'], is_moving := true } =
      handlePlayerUpdate
        { challenges := [], chat := ChatStore.init, presence := [],
          player_ws := [], connected := [7] } 1
        { client_id := none, x := 5, y := 6, map_name := ['m'],
          direction := ['u', 'p'], is_moving := true } ∧
    handleChatSend (α := Nat)
        { challenges := [], chat := ChatStore.init, presence := [],
          player_ws := [], connected := [7] } 1 7
        { client_id := some 99, text := ['h', 'i'] } 0 (fun _ => true) =
      handleChatSend
        { challenges := [], chat := ChatStore.init, presence := [],
          player_ws := [], connected := [7] } 1 7
        { client_id := none, text := ['h', 'i'] } 0 (fun _ => true) :=
  ⟨⟨rfl, rfl, rfl, rfl, rfl, rfl⟩,
   handler_ignores_client_id
     { challenges := [], chat := ChatStore.init, presence := [],
       player_ws := [], connected := [7] } 1 7
     { client_id := some 99, x := 5, y := 6, map_name := ['m'],
       direction := ['u', 'p'], is_moving := true }
     { client_id := none, x := 5, y := 6, map_name := ['m'],
       direction := ['u', 'p'], is_moving := true }
     { client_id := some 99, text := ['h', 'i'] }
     { client_id := none, text := ['h', 'i'] } 0 (fun _ => true)
     rfl rfl rfl rfl rfl rfl⟩

/-! ### Claims about the chat store -/

theorem pyStrip_eq_nil {s : List Char} (h : ∀ c ∈ s, c.isWhitespace) :
    pyStrip s = [] := by
  have h1 : s.dropWhile Char.isWhitespace = [] :=
    List.dropWhile_eq_nil_iff.mpr h
  simp [pyStrip, h1]

/-- Claim C4: for text that is empty or all whitespace, `ChatStore.add`
fails with the empty-message error (so no entry is appended and the chat
store — log and next id — is unchanged); when the handler reaches that
failure (which requires nonempty text, since `if text` skips empty text
before `add` is called) it replies `error{"empty_message"}` to the sender's
own socket only, broadcasting nothing; with fully empty text it does
nothing at all. -/
theorem chat_send_empty_spec {α : Type} (st : ServerState α) (pid : Int)
    (self_ws : Nat) (m : ChatSendMsg) (now : Nat) (sendOk : Nat → Bool)
    (h : ∀ c ∈ m.text, c.isWhitespace) :
    st.chat.add pid m.text now = .error "empty" ∧
    (m.text ≠ [] →
      handleChatSend st pid self_ws m now sendOk =
        (st, [(self_ws, OutMsg.error "empty_message".toList)])) ∧
    (m.text = [] → handleChatSend st pid self_ws m now sendOk = (st, [])) := by
  have hstrip := pyStrip_eq_nil h
  have hadd : st.chat.add pid m.text now = .error "empty" := by
    simp [ChatStore.add, hstrip]
  refine ⟨hadd, ?_, ?_⟩
  · intro hne
    rw [handleChatSend, if_pos hne, hadd]
  · intro he
    rw [handleChatSend, if_neg (by simp [he])]

theorem chat_send_empty_spec_witness :
    (∀ c ∈ [' ', ' '], c.isWhitespace) ∧
    (ChatStore.init.add 1 [' ', ' '] 0 = .error "empty" ∧
      handleChatSend (α := Nat)
          { challenges := [], chat := ChatStore.init, presence := [],
            player_ws := [], connected := [7, 8] } 1 7
          { client_id := none, text := [' ', ' '] } 0 (fun _ => true) =
        ({ challenges := [], chat := ChatStore.init, presence := [],
           player_ws := [], connected := [7, 8] },
         [(7, OutMsg.error "empty_message".toList)])) := by
  have h := chat_send_empty_spec (α := Nat)
    { challenges := [], chat := ChatStore.init, presence := [],
      player_ws := [], connected := [7, 8] } 1 7
    { client_id := none, text := [' ', ' '] } 0 (fun _ => true) (by decide)
  exact ⟨by decide, h.1, h.2.1 (by decide)⟩

/-- Claim C3 (amended): for every input whose whitespace-stripped form is
longer than 200 characters, `add` succeeds and stores exactly the first 200
characters of the *stripped* input.  (`add` strips before truncating, so
when the raw input carries edge whitespace the stored text is not the first
200 characters of the raw input — see the counterexample.) -/
theorem chat_truncates_stripped (s : ChatStore) (pid : Int)
    (text : List Char) (now : Nat) (h : (pyStrip text).length > 200) :
    ∃ s', s.add pid text now =
      .ok ({ id := s.next_id, sender := pid,
             text := (pyStrip text).take 200, ts := now }, s') := by
  have hlen : ((pyStrip text).take 200).length = 200 := by
    rw [List.length_take]
    omega
  have hne : ¬((pyStrip text).take 200).isEmpty = true := by
    rw [List.isEmpty_iff]
    intro he
    rw [he] at hlen
    simp at hlen
  exact ⟨_, by simp only [ChatStore.add]; rw [if_pos h, if_neg hne]⟩

set_option maxRecDepth 10000 in
/-- Claim C3 counterexample: the input `' '` followed by 200 `'a'`s has 201
characters, yet the stored text is the 200 `'a'`s (the stripped text), not
the input's first 200 characters, which begin with the space. -/
theorem chat_truncate_raw_input_cex :
    (' ' :: List.replicate 200 'a').length > 200 ∧
    ChatStore.init.add 7 (' ' :: List.replicate 200 'a') 0 =
      .ok ({ id := 1, sender := 7, text := List.replicate 200 'a', ts := 0 },
           { next_id := 2,
             messages := [{ id := 1, sender := 7,
                            text := List.replicate 200 'a', ts := 0 }] }) ∧
    List.replicate 200 'a' ≠ (' ' :: List.replicate 200 'a').take 200 := by
  refine ⟨?_, ?_, ?_⟩
  · rw [List.length_cons, List.length_replicate]
    omega
  · rfl
  · intro he
    have hh := congrArg List.head? he
    rw [List.head?_replicate] at hh
    simp at hh

set_option maxRecDepth 10000 in
theorem chat_truncates_stripped_witness :
    (pyStrip (' ' :: List.replicate 220 'b')).length > 200 ∧
    ∃ s', ChatStore.init.add 3 (' ' :: List.replicate 220 'b') 5 =
      .ok ({ id := 1, sender := 3,
             text := (pyStrip (' ' :: List.replicate 220 'b')).take 200,
             ts := 5 }, s') :=
  ⟨by decide,
   chat_truncates_stripped ChatStore.init 3 (' ' :: List.replicate 220 'b') 5
     (by decide)⟩

/-- Claim C2: with `since_id ≤ 0` the result is a suffix of the log of
length `min (log length) 100` — at most the 100 most recent messages; with
`since_id = k > 0` the result is a suffix of the qualifying sublist (the
stored messages with id > k, in stored order) of length `min qualifying
200` — the most recent 200 of the qualifying set, oldest qualifying dropped
first — so it never contains a message with id ≤ k, and it is in strictly
increasing id order whenever the store is. -/
theorem list_since_spec (s : ChatStore) (k : Int)
    (hs : s.messages.Pairwise (fun a b => a.id < b.id)) :
    (k ≤ 0 →
      s.list_since k <:+ s.messages ∧
      (s.list_since k).length = min s.messages.length 100) ∧
    (0 < k →
      s.list_since k <:+ s.messages.filter (fun m => (m.id : Int) > k) ∧
      (s.list_since k).length =
        min (s.messages.filter (fun m => (m.id : Int) > k)).length 200 ∧
      (∀ m ∈ s.list_since k, (m.id : Int) > k) ∧
      (s.list_since k).Pairwise (fun a b => a.id < b.id)) := by
  constructor
  · intro hk
    rw [ChatStore.list_since, if_pos hk]
    refine ⟨List.drop_suffix _ _, ?_⟩
    rw [List.length_drop]
    omega
  · intro hk
    have hq : (s.messages.filter
        (fun m => (m.id : Int) > k)).Pairwise (fun a b => a.id < b.id) :=
      hs.sublist (List.filter_sublist _)
    simp only [ChatStore.list_since]
    rw [if_neg (by omega)]
    split_ifs with hlen
    · refine ⟨List.drop_suffix _ _, ?_, ?_, ?_⟩
      · rw [List.length_drop]
        omega
      · intro m hm
        have hmq := (List.drop_suffix _ _).sublist.subset hm
        simpa using List.of_mem_filter hmq
      · exact hq.sublist (List.drop_suffix _ _).sublist
    · refine ⟨List.suffix_refl _, ?_, ?_, hq⟩
      · omega
      · intro m hm
        simpa using List.of_mem_filter hm

/-- A three-message chat store used by the `list_since` witness. -/
def exChatStore : ChatStore :=
  { next_id := 4,
    messages := [{ id := 1, sender := 1, text := ['a'], ts := 0 },
                 { id := 2, sender := 1, text := ['b'], ts := 0 },
                 { id := 3, sender := 2, text := ['c'], ts := 0 }] }

theorem list_since_spec_witness :
    exChatStore.messages.Pairwise (fun a b => a.id < b.id) ∧
    (exChatStore.list_since 0).length = 3 ∧
    (∀ m ∈ exChatStore.list_since 1, (m.id : Int) > 1) := by
  have h := list_since_spec exChatStore
  refine ⟨by decide, ?_, ?_⟩
  · have h0 := ((h 0 (by decide)).1 (by decide)).2
    simpa using h0
  · exact ((h 1 (by decide)).2 (by decide)).2.2.1

/-- The chat-log invariant: stored messages are in strictly increasing id
order, every stored id is below the `_next_id` counter, and the log holds at
most 1000 messages.  `ChatStore.init` satisfies it, and `add` preserves it
(claim C5). -/
def ChatInv (s : ChatStore) : Prop :=
  s.messages.Pairwise (fun a b => a.id < b.id) ∧
  (∀ m ∈ s.messages, m.id < s.next_id) ∧
  s.messages.length ≤ 1000

instance (s : ChatStore) : Decidable (ChatInv s) :=
  inferInstanceAs (Decidable (_ ∧ _ ∧ _))

set_option maxRecDepth 10000 in
/-- Claim C5: a successful `add` on a store satisfying the invariant keeps
the log at ≤ 1000 messages with insertion order equal to strictly
increasing id order; the new message gets id `next_id` (strictly above every
stored id — ids are assigned sequentially and never reused) and the counter
is bumped by one; when the append pushes the count past 1000 the log
becomes exactly the most recent 800 of the appended log (oldest dropped),
and otherwise it is exactly the appended log.  The invariant is preserved. -/
theorem chat_add_invariant (s : ChatStore) (pid : Int) (text : List Char)
    (now : Nat) (msg : ChatMsg) (s' : ChatStore) (hinv : ChatInv s)
    (h : s.add pid text now = .ok (msg, s')) :
    s'.messages.length ≤ 1000 ∧
    s'.messages.Pairwise (fun a b => a.id < b.id) ∧
    msg.id = s.next_id ∧
    s'.next_id = s.next_id + 1 ∧
    (∀ m ∈ s.messages, m.id < msg.id) ∧
    (s.messages.length + 1 > 1000 →
      s'.messages = (s.messages ++ [msg]).drop (s.messages.length + 1 - 800)) ∧
    (s.messages.length + 1 ≤ 1000 → s'.messages = s.messages ++ [msg]) ∧
    ChatInv s' := by
  obtain ⟨hsort, hids, hlen⟩ := hinv
  simp only [ChatStore.add] at h
  generalize (if (pyStrip text).length > 200 then (pyStrip text).take 200
    else pyStrip text) = t at h
  split at h
  · exact absurd h (by simp)
  · rw [Except.ok.injEq, Prod.mk.injEq] at h
    obtain ⟨hmsg, hs'⟩ := h
    subst hmsg
    subst hs'
    dsimp only
    set m : ChatMsg := { id := s.next_id, sender := pid, text := t, ts := now }
      with hm
    have happ : (s.messages ++ [m]).Pairwise (fun a b => a.id < b.id) := by
      rw [List.pairwise_append]
      refine ⟨hsort, List.pairwise_singleton _ _, ?_⟩
      intro a ha b hb
      rw [List.mem_singleton] at hb
      subst hb
      exact hids a ha
    have hidsm : ∀ x ∈ s.messages ++ [m], x.id < s.next_id + 1 := by
      intro x hx
      rw [List.mem_append, List.mem_singleton] at hx
      rcases hx with hx | hx
      · exact Nat.lt_succ_of_lt (hids x hx)
      · subst hx
        exact Nat.lt_succ_self _
    split_ifs with hbig
    · have hdlen : ((s.messages ++ [m]).drop
          ((s.messages ++ [m]).length - 800)).length = 800 := by
        rw [List.length_drop, List.length_append, List.length_singleton]
        rw [List.length_append, List.length_singleton] at hbig
        omega
      refine ⟨?_, ?_, rfl, rfl, hids, ?_, ?_, ?_, ?_, ?_⟩
      · rw [hdlen]
        omega
      · exact happ.sublist (List.drop_suffix _ _).sublist
      · intro _
        rw [List.length_append, List.length_singleton]
      · intro hle
        rw [List.length_append, List.length_singleton] at hbig
        omega
      · exact happ.sublist (List.drop_suffix _ _).sublist
      · intro x hx
        exact hidsm x ((List.drop_suffix _ _).sublist.subset hx)
      · rw [hdlen]
        omega
    · rw [List.length_append, List.length_singleton] at hbig
      refine ⟨?_, happ, rfl, rfl, hids, ?_, fun _ => rfl, happ, hidsm, ?_⟩
      · rw [List.length_append, List.length_singleton]
        omega
      · intro hgt
        omega
      · rw [List.length_append, List.length_singleton]
        omega

set_option maxRecDepth 10000 in
theorem chat_add_invariant_witness :
    ChatInv ChatStore.init ∧
    ChatStore.init.add 1 ['h', 'i'] 0 =
      .ok ({ id := 1, sender := 1, text := ['h', 'i'], ts := 0 },
           { next_id := 2,
             messages := [{ id := 1, sender := 1, text := ['h', 'i'],
                            ts := 0 }] }) ∧
    ChatInv { next_id := 2,
              messages := [{ id := 1, sender := 1, text := ['h', 'i'],
                             ts := 0 }] } := by
  refine ⟨by decide, by rfl, ?_⟩
  exact (chat_add_invariant ChatStore.init 1 ['h', 'i'] 0 _ _ (by decide)
    (by rfl)).2.2.2.2.2.2.2
